import Mathlib

/-!
Shallow embedding of `src/src/asset_conv.cpp` (namespace `gif643`): the
request parser (`Processor::parse`), the task queue operations used by
`Processor::parseAndQueue` / `Processor::processQueue`, the file-backed
dedup ledger (`Processor::fileExistsInSubfolder`), and the conversion
pipeline boundary (`TaskRunner::operator()`).

File-system and external-library effects are made explicit: the ledger
state of one scope directory is a record threaded through the check, the
SVG/PNG collaborators are an environment of functions, and diagnostic
output (std::cerr) is returned as a list of lines.
-/

namespace AssetConv

/-- Embedding of `struct TaskDef`: input SVG file name, output PNG file name
and the pixel size of the produced image (`int size` becomes `Int`). -/
structure TaskDef where
  fname_in : String
  fname_out : String
  size : Int
deriving Repr, DecidableEq

/-! ### Request parsing (`Processor::parse`, lines 324-356) -/

/-- Embedding of the tokenizing loop in `Processor::parse`: repeatedly cut the
line at the first `;` and keep the piece before it, then keep the remainder as
the final token. The accumulator holds the current token, reversed. -/
def splitSemiAux : List Char → List Char → List (List Char)
  | [], acc => [acc.reverse]
  | c :: rest, acc =>
    if c = ';' then acc.reverse :: splitSemiAux rest []
    else splitSemiAux rest (c :: acc)

/-- Tokens of a line, split on the literal separator `;`, trailing remainder
included (matches the `while (line.find(";") != npos)` loop plus the final
`tokens.push_back(line)`). -/
def splitSemi (s : String) : List String :=
  (splitSemiAux s.data []).map List.asString

/-- Value of the leading decimal digits of a character list, most significant
first, accumulated into `acc`; stops at the first non-digit. -/
def digitsVal : List Char → Int → Int
  | c :: rest, acc =>
    if c.isDigit then digitsVal rest (10 * acc + ((c.toNat : Int) - ('0'.toNat : Int)))
    else acc
  | [], acc => acc

/-- Whitespace accepted by C `atoi` before the number. -/
def isSpaceC (c : Char) : Bool :=
  c = ' ' || c = '\t' || c = '\n' || c = '\x0b' || c = '\x0c' || c = '\r'

/-- Drop one optional leading sign character. -/
def dropSign : List Char → List Char
  | '-' :: rest => rest
  | '+' :: rest => rest
  | cs => cs

/-- Embedding of C `atoi` as used on the size field: skip whitespace, read an
optional sign, then the value of the leading digit run; no digits yields 0. -/
def atoi (s : String) : Int :=
  let cs := s.data.dropWhile isSpaceC
  let sign : Int := match cs with
    | '-' :: _ => -1
    | _ => 1
  sign * digitsVal (dropSign cs) 0

/-- Does the size field start (after whitespace and an optional sign) with a
decimal digit?  When it does not, `atoi` reads no digits at all. -/
def hasLeadingDigit (s : String) : Bool :=
  match dropSign (s.data.dropWhile isSpaceC) with
  | c :: _ => c.isDigit
  | [] => false

/-- Diagnostic line emitted by `Processor::parse` on a malformed line. -/
def wrongLineMsg (line_org : String) : String :=
  "Error: Wrong line format: " ++ line_org ++ " (size: " ++ toString line_org.length ++ ")."

/-- Embedding of `Processor::parse`: split on `;`, reject (with a diagnostic
carrying the original line and its length) when fewer than three tokens,
otherwise build the task from the first three tokens, the third through
`atoi`.  Returns the parsed task (if any) and the stderr lines. -/
def parse (line_org : String) : Option TaskDef × List String :=
  let tokens := splitSemi line_org
  if tokens.length < 3 then
    (none, [wrongLineMsg line_org])
  else
    (some ⟨tokens.getD 0 (""), tokens.getD 1 (""), atoi (tokens.getD 2 (""))⟩, [])

/-- Embedding of the queue effect of `Processor::parseAndQueue`: a parsed task
is pushed at the back of the FIFO queue, a rejected line leaves it unchanged. -/
def parseAndQueue (line_org : String) (q : List TaskDef) : List TaskDef :=
  match (parse line_org).1 with
  | some d => q ++ [d]
  | none => q

/-! ### Dedup ledger (`Processor::fileExistsInSubfolder`, lines 270-319) -/

/-- Embedding of `fs::path(p).filename()`: the component after the last `/`. -/
def filenameOf (p : String) : String :=
  (p.split (fun c => c = '/')).getLastD ("")

/-- Embedding of `fs::path(base_name).stem()`: the file name of the path with
its extension removed.  `.` and `..` keep their name; a dot in first position
(hidden file) starts no extension. -/
def stem (p : String) : String :=
  let f := (filenameOf p).data
  if f = ['.'] || f = ['.', '.'] then ⟨f⟩
  else
    let after := (f.reverse.takeWhile (fun c => c ≠ '.')).length
    if after = f.length then ⟨f⟩
    else if f.length - 1 - after = 0 then ⟨f⟩
    else ⟨f.take (f.length - 1 - after)⟩

/-- State of one scope directory as seen by the ledger check: whether the
directory exists and is a directory, the contents of its `cache.txt` as lines
(`none` when the file is absent), and whether creating, reading and appending
the file succeed. -/
structure LedgerFS where
  dirOk : Bool
  ledger : Option (List String)
  canCreate : Bool
  canRead : Bool
  canAppend : Bool
deriving Repr, DecidableEq

/-- Lines currently recorded in the ledger file (an absent file has none). -/
def LedgerFS.lines (fsys : LedgerFS) : List String :=
  fsys.ledger.getD []

/-- Result of one `fileExistsInSubfolder` call: the returned boolean, the
scope directory state afterwards, and the stderr diagnostics. -/
structure LedgerResult where
  seen : Bool
  fs : LedgerFS
  errs : List String
deriving Repr, DecidableEq

/-- Embedding of the second half of `fileExistsInSubfolder` once the ledger
file exists with contents `lines`: open for reading (fail to `false` with a
diagnostic), scan line by line for `s`, return `true` on a match, otherwise
open for appending (fail to `false` with a diagnostic) and append `s`. -/
def scanAndAppend (fsys : LedgerFS) (s : String) (lines : List String)
    (cache_file : String) : LedgerResult :=
  if !fsys.canRead then
    ⟨false, fsys, ["Failed to open file: " ++ cache_file]⟩
  else if s ∈ lines then
    ⟨true, fsys, []⟩
  else if !fsys.canAppend then
    ⟨false, fsys, ["Failed to open file for appending: " ++ cache_file]⟩
  else
    ⟨false, { fsys with ledger := some (lines ++ [s]) }, []⟩

/-- Embedding of `Processor::fileExistsInSubfolder`: reduce `base_name` to its
stem, check the scope directory, lazily create `cache.txt`, then scan and
append.  Every failure branch returns `false` together with a diagnostic
line; no branch raises. -/
def fileExistsInSubfolder (fsys : LedgerFS) (base_name : String)
    (subfolder : String) : LedgerResult :=
  let s := stem base_name
  let cache_file := subfolder ++ "/cache.txt"
  if !fsys.dirOk then
    ⟨false, fsys, ["Subfolder does not exist: " ++ subfolder]⟩
  else
    match fsys.ledger with
    | none =>
      if !fsys.canCreate then
        ⟨false, fsys, ["Failed to create cache file: " ++ cache_file]⟩
      else
        scanAndAppend { fsys with ledger := some [] } s [] cache_file
    | some lines => scanAndAppend fsys s lines cache_file

/-! ### Conversion pipeline boundary (`TaskRunner::operator()`, lines 133-200) -/

/-- External collaborators of `TaskRunner`: `nsvgParseFromFile` (a parsed
document handle or failure), `nsvgRasterize` (document and size to a pixel
buffer; cannot fail), and the `stbi_write_png_to_func` encoder (`none` models
a zero return, which the code turns into a thrown `runtime_error`). -/
structure ConvEnv where
  svgParse : String → Option Nat
  rasterize : Nat → Int → List Nat
  pngEncode : List Nat → Option (List Nat)

/-- Embedding of the `try` block of `TaskRunner::operator()` up to encoding:
each failure is the message of the `runtime_error` thrown there. -/
def runnerBody (env : ConvEnv) (t : TaskDef) : Except String (List Nat) :=
  match env.svgParse t.fname_in with
  | none => .error ("Cannot parse \x27" ++ t.fname_in ++ "\x27.")
  | some image_in =>
    let image_data := env.rasterize image_in t.size
    match env.pngEncode image_data with
    | none => .error ("Error in write_png_to_func")
    | some data => .ok data

/-- Outcome of one `TaskRunner::operator()` call: the files written (path and
bytes) and the stderr lines. -/
structure RunResult where
  writes : List (String × List Nat)
  errs : List String
deriving Repr, DecidableEq

/-- Embedding of `TaskRunner::operator()`: run the pipeline; on success write
the encoded bytes to `fname_out`; a `runtime_error` is caught at this
boundary and logged with the source path and the reason, and nothing is
written.  The function is total: no failure escapes to the caller. -/
def runnerRun (env : ConvEnv) (t : TaskDef) : RunResult :=
  let pre := ["Running for " ++ t.fname_in ++ "..."]
  let post := ["Done for " ++ t.fname_in ++ "."]
  match runnerBody env t with
  | .ok data => ⟨[(t.fname_out, data)], pre ++ post⟩
  | .error msg =>
    ⟨[], pre ++ ["Exception while processing " ++ t.fname_in ++ ": " ++ msg] ++ post⟩

/-! ### Worker loop body (`Processor::processQueue`, lines 399-417) -/

/-- Embedding of what `processQueue` does with one dequeued task (lines
410-414): first consult the ledger of the fixed `output` scope directory —
which records the identity when fresh — and only when the identity was not
seen run the conversion.  Returns the directory state afterwards and the
files written. -/
def processQueueStep (fsys : LedgerFS) (env : ConvEnv) (t : TaskDef) :
    LedgerFS × List (String × List Nat) :=
  let r := fileExistsInSubfolder fsys t.fname_in ("output")
  if r.seen then (r.fs, [])
  else (r.fs, (runnerRun env t).writes)

/-! ### Task queue (`std::queue<TaskDef>`: push in `parseAndQueue`,
front/pop in `processQueue`) -/

/-- One operation on the shared task queue: a producer `push` (back of the
queue, `task_queue_.push`) or a consumer `pop` (front of the queue,
`task_queue_.front()` then `task_queue_.pop()`; a no-op when empty, as the
code only pops after a non-empty check). -/
inductive QueueOp
  | push (t : TaskDef)
  | pop

/-- Effect of one queue operation on the pair (queue contents, tasks dequeued
so far in dequeue order). -/
def stepOp : List TaskDef × List TaskDef → QueueOp → List TaskDef × List TaskDef
  | (q, out), .push t => (q ++ [t], out)
  | (q, out), .pop =>
    match q with
    | [] => (q, out)
    | t :: rest => (rest, out ++ [t])

/-- Run a sequence of queue operations from a starting state. -/
def runOps (s : List TaskDef × List TaskDef) : List QueueOp → List TaskDef × List TaskDef
  | [] => s
  | op :: rest => runOps (stepOp s op) rest

/-- Tasks pushed by a sequence of operations, in push order. -/
def pushedOf : List QueueOp → List TaskDef
  | [] => []
  | .push t :: rest => t :: pushedOf rest
  | .pop :: rest => pushedOf rest

/-! ### Helper lemmas -/

theorem splitSemiAux_length (l : List Char) :
    ∀ acc, (splitSemiAux l acc).length = l.count ';' + 1 := by
  induction l with
  | nil => intro acc; simp [splitSemiAux]
  | cons c rest ih =>
    intro acc
    by_cases hc : c = ';' <;>
      simp [splitSemiAux, hc, ih, List.count_cons]

theorem splitSemi_length (s : String) :
    (splitSemi s).length = s.data.count ';' + 1 := by
  simp [splitSemi, splitSemiAux_length]

theorem splitSemiAux_append (l1 l2 : List Char) :
    ∀ acc, splitSemiAux (l1 ++ ';' :: l2) acc
      = splitSemiAux l1 acc ++ splitSemiAux l2 [] := by
  induction l1 with
  | nil => intro acc; simp [splitSemiAux]
  | cons c rest ih =>
    intro acc
    by_cases hc : c = ';' <;> simp [splitSemiAux, hc, ih]

theorem splitSemi_append (a b : String) :
    splitSemi (a ++ ";" ++ b) = splitSemi a ++ splitSemi b := by
  have h : (a ++ ";" ++ b).data = a.data ++ ';' :: b.data := by
    simp [String.data_append]
  simp [splitSemi, h, splitSemiAux_append]

theorem parse_of_three (line : String) (h : 3 ≤ (splitSemi line).length) :
    parse line = (some ⟨(splitSemi line).getD 0 (""), (splitSemi line).getD 1 (""),
      atoi ((splitSemi line).getD 2 (""))⟩, []) := by
  have h3 : ¬ (splitSemi line).length < 3 := by omega
  simp [parse, h3]

theorem atoi_eq_zero (s : String) (h : hasLeadingDigit s = false) : atoi s = 0 := by
  unfold atoi
  unfold hasLeadingDigit at h
  cases hds : dropSign (s.data.dropWhile isSpaceC) with
  | nil => simp [hds, digitsVal]
  | cons c rest =>
    rw [hds] at h
    have h2 : c.isDigit = false := h
    simp [hds, digitsVal, h2]

theorem runOps_append_eq (ops : List QueueOp) :
    ∀ q out, (runOps (q, out) ops).2 ++ (runOps (q, out) ops).1
      = out ++ (q ++ pushedOf ops) := by
  induction ops with
  | nil => intro q out; simp [runOps, pushedOf]
  | cons op rest ih =>
    intro q out
    cases op with
    | push t => simp [runOps, stepOp, pushedOf, ih]
    | pop =>
      cases q with
      | nil => simp [runOps, stepOp, pushedOf, ih]
      | cons t q2 => simp [runOps, stepOp, pushedOf, ih]

theorem fileExists_lines_mono (fsys : LedgerFS) (b sub x : String)
    (hx : x ∈ fsys.lines) : x ∈ (fileExistsInSubfolder fsys b sub).fs.lines := by
  obtain ⟨dok, led, cc, cr, ca⟩ := fsys
  cases led with
  | none => simp [LedgerFS.lines] at hx
  | some lines =>
    simp only [LedgerFS.lines, Option.getD] at hx
    by_cases hs : stem b ∈ lines <;>
      cases dok <;> cases cc <;> cases cr <;> cases ca <;>
        simp [fileExistsInSubfolder, scanAndAppend, LedgerFS.lines, hs, hx]

theorem fileExists_valid (fsys : LedgerFS) (b sub : String)
    (hd : fsys.dirOk = true) (hc : fsys.canCreate = true)
    (hr : fsys.canRead = true) (ha : fsys.canAppend = true) :
    fileExistsInSubfolder fsys b sub =
      if stem b ∈ fsys.lines then ⟨true, fsys, []⟩
      else ⟨false, { fsys with ledger := some (fsys.lines ++ [stem b]) }, []⟩ := by
  obtain ⟨dok, led, cc, cr, ca⟩ := fsys
  dsimp only at hd hc hr ha
  subst hd hc hr ha
  cases led with
  | none => simp [fileExistsInSubfolder, scanAndAppend, LedgerFS.lines]
  | some lines =>
    by_cases hs : stem b ∈ lines <;>
      simp [fileExistsInSubfolder, scanAndAppend, LedgerFS.lines, hs]

/-! ### Claim theorems -/

/-- C1: for every identity and scope directory state in which the directory is
valid and the ledger file can be created, read and appended, the dedup check
`fileExistsInSubfolder` returns `true` (and changes nothing) when the identity
is already recorded in the ledger; when it is not yet recorded it returns
`false`, appends the identity as a new ledger line, and the next check for the
same identity and directory returns `true`. -/
theorem c1_dedup_seen_or_record (fsys : LedgerFS) (b sub : String)
    (hd : fsys.dirOk = true) (hc : fsys.canCreate = true)
    (hr : fsys.canRead = true) (ha : fsys.canAppend = true) :
    (stem b ∈ fsys.lines → fileExistsInSubfolder fsys b sub = ⟨true, fsys, []⟩) ∧
    (stem b ∉ fsys.lines →
      (fileExistsInSubfolder fsys b sub).seen = false ∧
      (fileExistsInSubfolder fsys b sub).fs.lines = fsys.lines ++ [stem b] ∧
      (fileExistsInSubfolder (fileExistsInSubfolder fsys b sub).fs b sub).seen = true) := by
  have hval := fileExists_valid fsys b sub hd hc hr ha
  constructor
  · intro hs
    rw [hval, if_pos hs]
  · intro hs
    rw [hval, if_neg hs]
    refine ⟨rfl, by simp [LedgerFS.lines], ?_⟩
    show (fileExistsInSubfolder
      { fsys with ledger := some (fsys.lines ++ [stem b]) } b sub).seen = true
    have hval2 := fileExists_valid
      { fsys with ledger := some (fsys.lines ++ [stem b]) } b sub hd hc hr ha
    rw [hval2, if_pos (by simp [LedgerFS.lines])]

/-- Witness for C1 at a concrete fresh identity: checking `icon.svg` against
an empty ledger returns "not seen", records `icon`, and a second check
returns "seen". -/
theorem c1_dedup_seen_or_record_witness :
    (fileExistsInSubfolder ⟨true, some [], true, true, true⟩ "icon.svg" "output").seen
      = false ∧
    (fileExistsInSubfolder ⟨true, some [], true, true, true⟩ "icon.svg" "output").fs.lines
      = (⟨true, some [], true, true, true⟩ : LedgerFS).lines ++ [stem "icon.svg"] ∧
    (fileExistsInSubfolder
      (fileExistsInSubfolder ⟨true, some [], true, true, true⟩ "icon.svg" "output").fs
      "icon.svg" "output").seen = true :=
  (c1_dedup_seen_or_record ⟨true, some [], true, true, true⟩ "icon.svg" "output"
    rfl rfl rfl rfl).2 (by simp [LedgerFS.lines])

/-- C2: the task queue is FIFO.  For every sequence of pushes and pops on the
shared queue, the tasks dequeued so far followed by the tasks still queued are
exactly the pushed tasks in push order; in particular the dequeue order is an
initial segment of the enqueue order. -/
theorem c2_fifo_order (ops : List QueueOp) :
    (runOps ([], []) ops).2 ++ (runOps ([], []) ops).1 = pushedOf ops ∧
    ∃ rest, (runOps ([], []) ops).2 ++ rest = pushedOf ops := by
  have h := runOps_append_eq ops [] []
  simp at h
  exact ⟨h, (runOps ([], []) ops).1, h⟩

/-- C3: every line splitting on `;` into at least three fields parses into a
task whose fields are exactly the first three tokens (the size through the
documented `atoi` conversion of the third token), and appending trailing
fields leaves the parsed task unchanged. -/
theorem c3_parse_first_three_fields (line extra : String)
    (h : 3 ≤ (splitSemi line).length) :
    (parse line).1 = some ⟨(splitSemi line).getD 0 (""), (splitSemi line).getD 1 (""),
      atoi ((splitSemi line).getD 2 (""))⟩ ∧
    (parse (line ++ ";" ++ extra)).1 = (parse line).1 := by
  have h2 : 3 ≤ (splitSemi (line ++ ";" ++ extra)).length := by
    rw [splitSemi_append]
    simp only [List.length_append]
    omega
  have g0 : (splitSemi (line ++ ";" ++ extra)).getD 0 ("") = (splitSemi line).getD 0 ("") := by
    rw [splitSemi_append]
    exact List.getD_append _ _ _ _ (by omega)
  have g1 : (splitSemi (line ++ ";" ++ extra)).getD 1 ("") = (splitSemi line).getD 1 ("") := by
    rw [splitSemi_append]
    exact List.getD_append _ _ _ _ (by omega)
  have g2 : (splitSemi (line ++ ";" ++ extra)).getD 2 ("") = (splitSemi line).getD 2 ("") := by
    rw [splitSemi_append]
    exact List.getD_append _ _ _ _ (by omega)
  rw [parse_of_three line h, parse_of_three _ h2, g0, g1, g2]
  exact ⟨rfl, rfl⟩

/-- Witness for C3 at the concrete line `a;b;96` with trailing field `x`. -/
theorem c3_parse_first_three_fields_witness :
    (parse "a;b;96").1 = some ⟨(splitSemi "a;b;96").getD 0 (""),
      (splitSemi "a;b;96").getD 1 (""), atoi ((splitSemi "a;b;96").getD 2 (""))⟩ ∧
    (parse ("a;b;96" ++ ";" ++ "x")).1 = (parse "a;b;96").1 :=
  c3_parse_first_three_fields "a;b;96" "x" (by decide)

/-- C4: any failure in the load/rasterize/encode part of the pipeline is
caught at the `TaskRunner::operator()` boundary: no file is written for the
request, and the diagnostic stream receives a line carrying the source path
and the failure reason.  `runnerRun` is total, so no failure reaches the
caller. -/
theorem c4_pipeline_failure_contained (env : ConvEnv) (t : TaskDef) (msg : String)
    (h : runnerBody env t = .error msg) :
    (runnerRun env t).writes = [] ∧
    ("Exception while processing " ++ t.fname_in ++ ": " ++ msg) ∈ (runnerRun env t).errs := by
  simp [runnerRun, h]

/-- Witness for C4 with an environment whose SVG loader fails on
`missing.svg`: nothing is written and the exception line is logged. -/
theorem c4_pipeline_failure_contained_witness :
    (runnerRun ⟨fun _ => none, fun _ _ => [], fun _ => none⟩
      ⟨"missing.svg", "out/x.png", 32⟩).writes = [] ∧
    ("Exception while processing " ++ "missing.svg" ++ ": "
      ++ ("Cannot parse \x27" ++ "missing.svg" ++ "\x27.")) ∈
      (runnerRun ⟨fun _ => none, fun _ _ => [], fun _ => none⟩
        ⟨"missing.svg", "out/x.png", 32⟩).errs :=
  c4_pipeline_failure_contained ⟨fun _ => none, fun _ _ => [], fun _ => none⟩
    ⟨"missing.svg", "out/x.png", 32⟩
    ("Cannot parse \x27" ++ "missing.svg" ++ "\x27.") rfl

/-- C5: every line with fewer than three `;`-separated fields is rejected by
`parse` with the diagnostic carrying the original line and its length, no
exception (the embedding is a total function returning `none`), and
`parseAndQueue` leaves the queue unchanged. -/
theorem c5_parse_reject_short_line (line : String) (q : List TaskDef)
    (h : (splitSemi line).length < 3) :
    (parse line).1 = none ∧
    (parse line).2 = [wrongLineMsg line] ∧
    parseAndQueue line q = q := by
  simp [parse, parseAndQueue, h]

/-- Witness for C5 at the malformed line `onlyonefield` and a non-empty
queue. -/
theorem c5_parse_reject_short_line_witness :
    (parse "onlyonefield").1 = none ∧
    (parse "onlyonefield").2 = [wrongLineMsg "onlyonefield"] ∧
    parseAndQueue "onlyonefield" [⟨"a", "b", 1⟩] = [⟨"a", "b", 1⟩] :=
  c5_parse_reject_short_line "onlyonefield" [⟨"a", "b", 1⟩] (by decide)

/-- C6: every ledger failure mode — scope directory missing or not a
directory, ledger file that cannot be created, opened for reading, or opened
for appending — makes `fileExistsInSubfolder` return `false` ("not seen", so
the request proceeds) together with a diagnostic line; the embedding is a
total function, so no error escapes the worker. -/
theorem c6_ledger_failures_degrade (fsys : LedgerFS) (b sub : String)
    (h : fsys.dirOk = false ∨
      (fsys.dirOk = true ∧ fsys.ledger = none ∧ fsys.canCreate = false) ∨
      (fsys.dirOk = true ∧ fsys.canCreate = true ∧ fsys.canRead = false) ∨
      (fsys.dirOk = true ∧ fsys.canRead = true ∧ stem b ∉ fsys.lines ∧
        fsys.canAppend = false)) :
    (fileExistsInSubfolder fsys b sub).seen = false ∧
    (fileExistsInSubfolder fsys b sub).errs ≠ [] := by
  obtain ⟨dok, led, cc, cr, ca⟩ := fsys
  dsimp only [LedgerFS.lines] at h
  rcases h with h | ⟨h1, h2, h3⟩ | ⟨h1, h2, h3⟩ | ⟨h1, h2, h3, h4⟩
  · subst h
    simp [fileExistsInSubfolder]
  · subst h1 h2 h3
    simp [fileExistsInSubfolder]
  · subst h1 h2 h3
    cases led <;> simp [fileExistsInSubfolder, scanAndAppend]
  · subst h1 h2 h4
    cases led with
    | none =>
      cases cc <;> simp [fileExistsInSubfolder, scanAndAppend]
    | some lines =>
      simp only [Option.getD_some] at h3
      simp [fileExistsInSubfolder, scanAndAppend, h3]

/-- Witness for C6 at a missing scope directory. -/
theorem c6_ledger_failures_degrade_witness :
    (fileExistsInSubfolder ⟨false, some [], true, true, true⟩ "icon.svg" "output").seen
      = false ∧
    (fileExistsInSubfolder ⟨false, some [], true, true, true⟩ "icon.svg" "output").errs
      ≠ [] :=
  c6_ledger_failures_degrade ⟨false, some [], true, true, true⟩ "icon.svg" "output"
    (Or.inl rfl)

/-- C8: a line with at least three fields whose third field carries no leading
digit (after optional whitespace and sign, as read by `atoi`) is not
rejected: `parse` accepts it and the task's size is zero. -/
theorem c8_nonnumeric_size_becomes_zero (line : String)
    (h3 : 3 ≤ (splitSemi line).length)
    (hnd : hasLeadingDigit ((splitSemi line).getD 2 ("")) = false) :
    (parse line).1 = some ⟨(splitSemi line).getD 0 (""), (splitSemi line).getD 1 (""), 0⟩ := by
  rw [parse_of_three line h3, atoi_eq_zero _ hnd]

/-- Witness for C8 at the concrete line `a.svg;b.png;xyz`. -/
theorem c8_nonnumeric_size_becomes_zero_witness :
    (parse "a.svg;b.png;xyz").1 = some ⟨(splitSemi "a.svg;b.png;xyz").getD 0 (""),
      (splitSemi "a.svg;b.png;xyz").getD 1 (""), 0⟩ :=
  c8_nonnumeric_size_becomes_zero "a.svg;b.png;xyz" (by decide) (by decide)

/-- C9: the worker records the dequeued task's source identity in the ledger
before the conversion is attempted and never removes it: when the identity is
fresh and the conversion fails (source not loadable), the identity is in the
ledger afterwards although nothing was written; resubmitting the same task —
under any environment, even one whose conversion would succeed — is skipped
with no output and no ledger change; and the identity survives every later
ledger check. -/
theorem c9_ledger_records_despite_failure (fsys : LedgerFS) (env env2 : ConvEnv)
    (t : TaskDef)
    (hd : fsys.dirOk = true) (hc : fsys.canCreate = true)
    (hr : fsys.canRead = true) (ha : fsys.canAppend = true)
    (hfresh : stem t.fname_in ∉ fsys.lines)
    (hfail : env.svgParse t.fname_in = none) :
    stem t.fname_in ∈ (processQueueStep fsys env t).1.lines ∧
    (processQueueStep fsys env t).2 = [] ∧
    processQueueStep (processQueueStep fsys env t).1 env2 t
      = ((processQueueStep fsys env t).1, []) ∧
    (∀ b2 sub2, stem t.fname_in ∈
      (fileExistsInSubfolder (processQueueStep fsys env t).1 b2 sub2).fs.lines) := by
  have hval := fileExists_valid fsys t.fname_in ("output") hd hc hr ha
  rw [if_neg hfresh] at hval
  have hstep : processQueueStep fsys env t
      = ({ fsys with ledger := some (fsys.lines ++ [stem t.fname_in]) }, []) := by
    unfold processQueueStep
    rw [hval]
    simp [runnerRun, runnerBody, hfail]
  have hmem : stem t.fname_in
      ∈ ({ fsys with ledger := some (fsys.lines ++ [stem t.fname_in]) } : LedgerFS).lines := by
    simp [LedgerFS.lines]
  refine ⟨by rw [hstep]; exact hmem, by rw [hstep], ?_, ?_⟩
  · rw [hstep]
    have hval2 := fileExists_valid
      { fsys with ledger := some (fsys.lines ++ [stem t.fname_in]) } t.fname_in ("output")
      hd hc hr ha
    rw [if_pos hmem] at hval2
    unfold processQueueStep
    rw [hval2]
    simp
  · intro b2 sub2
    rw [hstep]
    exact fileExists_lines_mono _ b2 sub2 _ hmem

/-- Witness for C9: a fresh `missing.svg` task processed under a failing
loader is recorded, produces nothing, and its resubmission under a succeeding
environment is skipped; the identity survives a later check for another
file. -/
theorem c9_ledger_records_despite_failure_witness :
    stem "missing.svg" ∈
      (processQueueStep ⟨true, some [], true, true, true⟩
        ⟨fun _ => none, fun _ _ => [], fun _ => none⟩
        ⟨"missing.svg", "out/x.png", 32⟩).1.lines ∧
    (processQueueStep ⟨true, some [], true, true, true⟩
      ⟨fun _ => none, fun _ _ => [], fun _ => none⟩
      ⟨"missing.svg", "out/x.png", 32⟩).2 = [] ∧
    processQueueStep
      (processQueueStep ⟨true, some [], true, true, true⟩
        ⟨fun _ => none, fun _ _ => [], fun _ => none⟩
        ⟨"missing.svg", "out/x.png", 32⟩).1
      ⟨fun _ => some 0, fun _ _ => [], fun _ => some [1]⟩
      ⟨"missing.svg", "out/x.png", 32⟩
      = ((processQueueStep ⟨true, some [], true, true, true⟩
          ⟨fun _ => none, fun _ _ => [], fun _ => none⟩
          ⟨"missing.svg", "out/x.png", 32⟩).1, []) ∧
    stem "missing.svg" ∈
      (fileExistsInSubfolder
        (processQueueStep ⟨true, some [], true, true, true⟩
          ⟨fun _ => none, fun _ _ => [], fun _ => none⟩
          ⟨"missing.svg", "out/x.png", 32⟩).1 "other.svg" "output").fs.lines := by
  have h := c9_ledger_records_despite_failure ⟨true, some [], true, true, true⟩
    ⟨fun _ => none, fun _ _ => [], fun _ => none⟩
    ⟨fun _ => some 0, fun _ _ => [], fun _ => some [1]⟩
    ⟨"missing.svg", "out/x.png", 32⟩
    rfl rfl rfl rfl (by simp [LedgerFS.lines]) rfl
  exact ⟨h.1, h.2.1, h.2.2.1, h.2.2.2 "other.svg" "output"⟩

/-- C10: `parse` validates nothing beyond the field count: every line with at
least two `;` separators is accepted, `;;` yields a task with empty source
and destination paths and size 0, and a negative size is accepted as-is (no
positivity check). -/
theorem c10_parse_no_content_validation :
    (∀ line : String, 2 ≤ line.data.count ';' → ((parse line).1).isSome = true) ∧
    (parse ";;").1 = some ⟨"", "", 0⟩ ∧
    (parse "a;b;-7").1 = some ⟨"a", "b", -7⟩ := by
  refine ⟨?_, by decide, by decide⟩
  intro line hl
  have h3 : 3 ≤ (splitSemi line).length := by
    rw [splitSemi_length]
    omega
  rw [parse_of_three line h3]
  rfl

/-- Witness for C10's quantified part at the concrete line `x;y;z;w`. -/
theorem c10_parse_no_content_validation_witness :
    ((parse "x;y;z;w").1).isSome = true :=
  c10_parse_no_content_validation.1 "x;y;z;w" (by decide)

end AssetConv
